import Mathlib

/-!
Shallow embedding of the TurnStay webhook SDK (Python) in Lean 4.

Source files embedded:
  * `turnstay_webhooks/signature.py` — header parsing, HMAC-SHA256 signature
    verification with replay-window enforcement;
  * `turnstay_webhooks/event.py` — `EventData` / `Event` construction and
    serialization over dynamically typed Python values;
  * `turnstay_webhooks/client.py` — client construction validation, transport
    routing, and the HTTP retry loop.

Modelling conventions:
  * Python strings are `List Char`; byte strings are `List Nat` (each < 256).
  * Machine-free arithmetic: 32-bit words are `Nat` reduced mod `2^32`.
  * `time.time()` is passed in as an explicit `now : Int` parameter (the float
    fraction of the clock is irrelevant to the integer tolerance comparisons
    modelled here).
  * Exceptions become `Except` / explicit error constructors.
  * `hmac.compare_digest` is modelled as string equality: its constant-time
    behaviour is a timing property with the same functional result.
  * `json.loads` is modelled by an executable JSON parser over the RFC 8259
    grammar as accepted by Python (`NaN`/`Infinity` constants included; IEEE
    rounding of non-integer numbers is not modelled, the parsed digits are kept
    exactly).
-/

set_option maxRecDepth 1000000

set_option maxHeartbeats 4000000

namespace TS

/-! ## Basic string utilities (Python `str` helpers over `List Char`) -/

/-- Python `str.split(sep)` for a single-character separator: always returns
`n+1` parts for `n` separators, so `"".split(",") = [""]`. -/
def splitOnChar (sep : Char) : List Char → List (List Char)
  | [] => [[]]
  | c :: cs =>
    match splitOnChar sep cs with
    | [] => if c = sep then [[], []] else [[c]]
    | part :: parts =>
      if c = sep then [] :: part :: parts
      else (c :: part) :: parts

/-- ASCII whitespace stripped by Python `str.strip()` (Unicode space classes
beyond ASCII are not modelled). -/
def isPySpace (c : Char) : Bool :=
  c = ' ' || c = '\t' || c = '\n' || c = '\r' || c = Char.ofNat 11 || c = Char.ofNat 12

def stripLeft : List Char → List Char
  | [] => []
  | c :: cs => if isPySpace c then stripLeft cs else c :: cs

def stripRight (s : List Char) : List Char :=
  (stripLeft s.reverse).reverse

/-- Python `str.strip()`. -/
def strip (s : List Char) : List Char :=
  stripRight (stripLeft s)

/-- Python `item.split(sep, 1)` restricted to the question "was there a
separator, and what is before / after the first one": `none` when the
separator does not occur. -/
def splitFirstChar (sep : Char) : List Char → Option (List Char × List Char)
  | [] => none
  | c :: cs =>
    if c = sep then some ([], cs)
    else
      match splitFirstChar sep cs with
      | none => none
      | some (l, r) => some (c :: l, r)

def isDigitChar (c : Char) : Bool :=
  48 ≤ c.toNat && c.toNat ≤ 57

def digitVal (c : Char) : Nat :=
  c.toNat - 48

/-! ## Python `int(str)`

`int()` on a string strips surrounding whitespace, accepts an optional sign,
then a non-empty digit run in which single underscores may separate digits.
Failure (Python `ValueError`) is `none`. -/

/-- Digit run with optional single underscores between digits, value of the
accumulated number; `none` on any malformed input. -/
def pyDigitsGo (acc : Nat) : List Char → Option Nat
  | [] => some acc
  | '_' :: c :: cs =>
    if isDigitChar c then pyDigitsGo (acc * 10 + digitVal c) cs else none
  | '_' :: [] => none
  | c :: cs =>
    if isDigitChar c then pyDigitsGo (acc * 10 + digitVal c) cs else none

def pyDigits : List Char → Option Nat
  | [] => none
  | c :: cs => if isDigitChar c then pyDigitsGo (digitVal c) cs else none

/-- Model of Python `int(s)` for a string argument. -/
def pyIntOfString (s : List Char) : Option Int :=
  match strip s with
  | '+' :: rest => (pyDigits rest).map fun n => (n : Int)
  | '-' :: rest => (pyDigits rest).map fun n => -(n : Int)
  | rest => (pyDigits rest).map fun n => (n : Int)

/-! ## Decimal rendering (Python `str(int)`) -/

def digitChar (n : Nat) : Char :=
  Char.ofNat (48 + n)

def natReprGo : Nat → Nat → List Char → List Char
  | 0, _, acc => acc
  | fuel + 1, n, acc =>
    if n < 10 then digitChar n :: acc
    else natReprGo fuel (n / 10) (digitChar (n % 10) :: acc)

def natRepr (n : Nat) : List Char :=
  natReprGo (n + 1) n []

def intRepr (i : Int) : List Char :=
  if i < 0 then '-' :: natRepr i.natAbs else natRepr i.natAbs

/-! ## 32-bit word arithmetic on `Nat` -/

def w32 (x : Nat) : Nat := x % 4294967296

/-- Bitwise xor of two 32-bit words (inputs < `2^32`, so no reduction needed). -/
def xor32 (a b : Nat) : Nat := a ^^^ b

/-- Bitwise and of two 32-bit words. -/
def and32 (a b : Nat) : Nat := a &&& b

/-- Bitwise complement on a 32-bit word (`a < 2^32`). -/
def not32 (a : Nat) : Nat := 4294967295 - a

/-- Right rotation of a 32-bit word by `n < 32` bits. -/
def rotr32 (n x : Nat) : Nat :=
  x / 2 ^ n + x % 2 ^ n * 2 ^ (32 - n)

def shr32 (n x : Nat) : Nat := x / 2 ^ n

/-! ## UTF-8 encoding (`str.encode("utf-8")`) -/

def utf8EncodeChar (c : Char) : List Nat :=
  let n := c.toNat
  if n < 128 then [n]
  else if n < 2048 then [192 + n / 64, 128 + n % 64]
  else if n < 65536 then [224 + n / 4096, 128 + n / 64 % 64, 128 + n % 64]
  else [240 + n / 262144, 128 + n / 4096 % 64, 128 + n / 64 % 64, 128 + n % 64]

def utf8Encode (s : List Char) : List Nat :=
  (s.map utf8EncodeChar).flatten

/-! ## SHA-256 (FIPS 180-4), bytes to bytes -/

/-- The 64 round constants (decimal rendering of the FIPS 180-4 table). -/
def sha256K : List Nat :=
  [1116352408, 1899447441, 3049323471, 3921009573, 961987163,
   1508970993, 2453635748, 2870763221, 3624381080, 310598401,
   607225278, 1426881987, 1925078388, 2162078206, 2614888103,
   3248222580, 3835390401, 4022224774, 264347078, 604807628,
   770255983, 1249150122, 1555081692, 1996064986, 2554220882,
   2821834349, 2952996808, 3210313671, 3336571891, 3584528711,
   113926993, 338241895, 666307205, 773529912, 1294757372,
   1396182291, 1695183700, 1986661051, 2177026350, 2456956037,
   2730485921, 2820302411, 3259730800, 3345764771, 3516065817,
   3600352804, 4094571909, 275423344, 430227734, 506948616,
   659060556, 883997877, 958139571, 1322822218, 1537002063,
   1747873779, 1955562222, 2024104815, 2227730452, 2361852424,
   2428436474, 2756734187, 3204031479, 3329325298]

/-- The initial hash state (decimal rendering of the FIPS 180-4 table). -/
def sha256InitH : List Nat :=
  [1779033703, 3144134277, 1013904242, 2773480762,
   1359893119, 2600822924, 528734635, 1541459225]

def ssig0 (x : Nat) : Nat := xor32 (xor32 (rotr32 7 x) (rotr32 18 x)) (shr32 3 x)

def ssig1 (x : Nat) : Nat := xor32 (xor32 (rotr32 17 x) (rotr32 19 x)) (shr32 10 x)

def bsig0 (x : Nat) : Nat := xor32 (xor32 (rotr32 2 x) (rotr32 13 x)) (rotr32 22 x)

def bsig1 (x : Nat) : Nat := xor32 (xor32 (rotr32 6 x) (rotr32 11 x)) (rotr32 25 x)

def chF (x y z : Nat) : Nat := xor32 (and32 x y) (and32 (not32 x) z)

def majF (x y z : Nat) : Nat := xor32 (xor32 (and32 x y) (and32 x z)) (and32 y z)

/-- One schedule word from the (reversed) schedule built so far. -/
def schedStep (rws : List Nat) : Nat :=
  w32 (rws.getD 15 0 + ssig0 (rws.getD 14 0) + rws.getD 6 0 + ssig1 (rws.getD 1 0))

/-- Extend a reversed schedule by `n` words. -/
def schedExtend : Nat → List Nat → List Nat
  | 0, rws => rws
  | n + 1, rws => schedExtend n (schedStep rws :: rws)

structure ShaState where
  a : Nat
  b : Nat
  c : Nat
  d : Nat
  e : Nat
  f : Nat
  g : Nat
  h : Nat

def shaStateOfList (l : List Nat) : ShaState :=
  ⟨l.getD 0 0, l.getD 1 0, l.getD 2 0, l.getD 3 0,
   l.getD 4 0, l.getD 5 0, l.getD 6 0, l.getD 7 0⟩

def shaRound (st : ShaState) (kw : Nat × Nat) : ShaState :=
  let t1 := w32 (st.h + bsig1 st.e + chF st.e st.f st.g + kw.1 + kw.2)
  let t2 := w32 (bsig0 st.a + majF st.a st.b st.c)
  ⟨w32 (t1 + t2), st.a, st.b, st.c, w32 (st.d + t1), st.e, st.f, st.g⟩

/-- Big-endian bytes (4) of a 32-bit word. -/
def be32 (x : Nat) : List Nat :=
  [x / 16777216 % 256, x / 65536 % 256, x / 256 % 256, x % 256]

/-- Big-endian bytes (8) of a 64-bit value. -/
def be64 (x : Nat) : List Nat :=
  [x / 72057594037927936 % 256, x / 281474976710656 % 256,
   x / 1099511627776 % 256, x / 4294967296 % 256,
   x / 16777216 % 256, x / 65536 % 256, x / 256 % 256, x % 256]

/-- 16 big-endian 32-bit words from a 64-byte chunk. -/
def chunkWords : List Nat → List Nat
  | b0 :: b1 :: b2 :: b3 :: rest =>
    (b0 * 16777216 + b1 * 65536 + b2 * 256 + b3) :: chunkWords rest
  | _ => []

/-- Compress one 64-byte chunk into the running hash (8 words). -/
def shaCompress (hs : List Nat) (chunk : List Nat) : List Nat :=
  let ws := (schedExtend 48 (chunkWords chunk).reverse).reverse
  let st := (sha256K.zip ws).foldl shaRound (shaStateOfList hs)
  [w32 (hs.getD 0 0 + st.a), w32 (hs.getD 1 0 + st.b),
   w32 (hs.getD 2 0 + st.c), w32 (hs.getD 3 0 + st.d),
   w32 (hs.getD 4 0 + st.e), w32 (hs.getD 5 0 + st.f),
   w32 (hs.getD 6 0 + st.g), w32 (hs.getD 7 0 + st.h)]

/-- Merkle–Damgård padding: `0x80`, zeros to 56 mod 64, 8-byte bit length. -/
def sha256Pad (msg : List Nat) : List Nat :=
  let l := msg.length
  let z := (119 - l % 64) % 64
  msg ++ [128] ++ List.replicate z 0 ++ be64 (8 * l)

/-- Split into 64-byte chunks (`fuel` bounds the number of chunks). -/
def group64 : Nat → List Nat → List (List Nat)
  | 0, _ => []
  | _ + 1, [] => []
  | fuel + 1, l => l.take 64 :: group64 fuel (l.drop 64)

/-- SHA-256 digest (32 bytes) of a byte string. -/
def sha256 (msg : List Nat) : List Nat :=
  let padded := sha256Pad msg
  let hs := (group64 padded.length padded).foldl shaCompress sha256InitH
  (hs.map be32).flatten

/-! ## Lowercase hex rendering (`hexdigest()`) -/

def hexChar (n : Nat) : Char :=
  if n < 10 then Char.ofNat (48 + n) else Char.ofNat (87 + n)

def hexOfBytes (bs : List Nat) : List Char :=
  (bs.map fun b => [hexChar (b / 16), hexChar (b % 16)]).flatten

/-! ## HMAC-SHA256 (RFC 2104, block size 64) -/

def hmacSha256 (key msg : List Nat) : List Nat :=
  let k0 := if 64 < key.length then sha256 key else key
  let kp := k0 ++ List.replicate (64 - k0.length) 0
  let ipad := kp.map fun b => xor32 b 54
  let opad := kp.map fun b => xor32 b 92
  sha256 (opad ++ sha256 (ipad ++ msg))

/-- `WebhookSignature._compute_signature`: lowercase-hex HMAC-SHA256 of
`timestamp + "." + payload` keyed by the UTF-8 secret. -/
def compute_signature (secret timestamp payload : List Char) : List Char :=
  hexOfBytes (hmacSha256 (utf8Encode secret)
    (utf8Encode (timestamp ++ '.' :: payload)))

/-! ## JSON values and a model of Python `json.loads`

Python parses a JSON number with no fraction/exponent to `int` and any other
number to `float`; the latter is kept here as exact decimal data
`mantissa * 10 ^ exp10` (IEEE rounding is outside the model). Python also
accepts the `NaN` / `Infinity` / `-Infinity` constants. Object duplicate keys
follow `dict` semantics: the value of the last occurrence wins, at the position
of the first occurrence. -/

inductive Json where
  | null
  | bool (b : Bool)
  | int (n : Int)
  | float (mantissa : Int) (exp10 : Int)
  | nan
  | infinity (neg : Bool)
  | str (s : List Char)
  | arr (xs : List Json)
  | obj (entries : List (List Char × Json))

def quoteChar : Char := Char.ofNat 34

def backslashChar : Char := Char.ofNat 92

def lbraceChar : Char := Char.ofNat 123

def rbraceChar : Char := Char.ofNat 125

def isJsonWs (c : Char) : Bool :=
  c = ' ' || c = '\t' || c = '\n' || c = '\r'

def skipWs : List Char → List Char
  | [] => []
  | c :: cs => if isJsonWs c then skipWs cs else c :: cs

def hexDigitVal (c : Char) : Option Nat :=
  if isDigitChar c then some (digitVal c)
  else if 97 ≤ c.toNat && c.toNat ≤ 102 then some (c.toNat - 87)
  else if 65 ≤ c.toNat && c.toNat ≤ 70 then some (c.toNat - 55)
  else none

/-- Match a literal prefix, returning the rest of the input. -/
def dropLit : List Char → List Char → Option (List Char)
  | [], s => some s
  | _ :: _, [] => none
  | e :: es, c :: cs => if c = e then dropLit es cs else none

def escapeCode (c : Char) : Option Char :=
  if c = quoteChar then some quoteChar
  else if c = backslashChar then some backslashChar
  else if c = '/' then some '/'
  else if c = 'b' then some (Char.ofNat 8)
  else if c = 'f' then some (Char.ofNat 12)
  else if c = 'n' then some '\n'
  else if c = 'r' then some '\r'
  else if c = 't' then some '\t'
  else none

/-- Peek a `\uXXXX` escape at the head of the input. -/
def uEscapeAt : List Char → Option (Nat × List Char)
  | b :: u :: h1 :: h2 :: h3 :: h4 :: cs =>
    if b = backslashChar && u = 'u' then
      match hexDigitVal h1, hexDigitVal h2, hexDigitVal h3, hexDigitVal h4 with
      | some a, some b2, some c, some d => some (a * 4096 + b2 * 256 + c * 16 + d, cs)
      | _, _, _, _ => none
    else none
  | _ => none

/-- Body of a JSON string after the opening quote: content up to the closing
quote plus the input remaining after it. Strict mode: unescaped control
characters are rejected. Surrogate pairs from `\u` escapes are combined;
a lone surrogate (representable in a Python `str` but not in a Lean `Char`)
degrades to `Char.ofNat`'s default. -/
def parseStrBody : Nat → List Char → Option (List Char × List Char)
  | 0, _ => none
  | _ + 1, [] => none
  | fuel + 1, c :: cs =>
    if c = quoteChar then some ([], cs)
    else if c = backslashChar then
      match uEscapeAt (c :: cs) with
      | some (cp, rest) =>
        if 55296 ≤ cp && cp ≤ 56319 then
          match uEscapeAt rest with
          | some (cp2, rest2) =>
            if 56320 ≤ cp2 && cp2 ≤ 57343 then
              (parseStrBody fuel rest2).map fun r =>
                (Char.ofNat (65536 + (cp - 55296) * 1024 + (cp2 - 56320)) :: r.1, r.2)
            else
              (parseStrBody fuel rest).map fun r => (Char.ofNat cp :: r.1, r.2)
          | none =>
            (parseStrBody fuel rest).map fun r => (Char.ofNat cp :: r.1, r.2)
        else
          (parseStrBody fuel rest).map fun r => (Char.ofNat cp :: r.1, r.2)
      | none =>
        match cs with
        | [] => none
        | e :: cs2 =>
          match escapeCode e with
          | some ec => (parseStrBody fuel cs2).map fun r => (ec :: r.1, r.2)
          | none => none
    else if c.toNat < 32 then none
    else (parseStrBody fuel cs).map fun r => (c :: r.1, r.2)

def spanDigits : List Char → List Char × List Char
  | [] => ([], [])
  | c :: cs =>
    if isDigitChar c then
      let r := spanDigits cs
      (c :: r.1, r.2)
    else ([], c :: cs)

def digitsToNat (ds : List Char) : Nat :=
  ds.foldl (fun a c => a * 10 + digitVal c) 0

/-- JSON number per Python's scanner regex
`(-?(?:0|[1-9]\d*))(\.\d+)?([eE][-+]?\d+)?`: integer result when fraction and
exponent are both absent, "float" (kept exact) otherwise. -/
def parseNumber (s : List Char) : Option (Json × List Char) :=
  let signed : Bool × List Char :=
    match s with
    | '-' :: r => (true, r)
    | _ => (false, s)
  match signed.2 with
  | [] => none
  | c :: cs =>
    if ¬ isDigitChar c then none
    else
      let ipRest : List Char × List Char :=
        if c = '0' then (['0'], cs) else spanDigits (c :: cs)
      let fracRest : Option (List Char) × List Char :=
        match ipRest.2 with
        | '.' :: rr =>
          match spanDigits rr with
          | ([], _) => (none, ipRest.2)
          | (ds, r) => (some ds, r)
        | _ => (none, ipRest.2)
      let expRest : Option Int × List Char :=
        match fracRest.2 with
        | e :: rr =>
          if e = 'e' || e = 'E' then
            match rr with
            | '+' :: rr2 =>
              match spanDigits rr2 with
              | ([], _) => (none, fracRest.2)
              | (ds, r) => (some ((digitsToNat ds : Nat) : Int), r)
            | '-' :: rr2 =>
              match spanDigits rr2 with
              | ([], _) => (none, fracRest.2)
              | (ds, r) => (some (-((digitsToNat ds : Nat) : Int)), r)
            | rr2 =>
              match spanDigits rr2 with
              | ([], _) => (none, fracRest.2)
              | (ds, r) => (some ((digitsToNat ds : Nat) : Int), r)
          else (none, fracRest.2)
        | [] => (none, fracRest.2)
      let applySign : Int → Int := fun n => if signed.1 then -n else n
      match fracRest.1, expRest.1 with
      | none, none => some (.int (applySign (digitsToNat ipRest.1)), fracRest.2)
      | fds, ex =>
        let fdigits := fds.getD []
        let mant := applySign (digitsToNat (ipRest.1 ++ fdigits))
        some (.float mant ((ex.getD 0) - fdigits.length), expRest.2)

/-- `dict` assignment: the last value for a key wins, kept at the position of
the key's first insertion. -/
def objUpsert (es : List (List Char × Json)) (k : List Char) (v : Json) :
    List (List Char × Json) :=
  if es.any fun e => e.1 = k then
    es.map fun e => if e.1 = k then (k, v) else e
  else es ++ [(k, v)]

/-- Parsing mode: a single value, the tail of an array after at least one
element is known to follow, or the members of an object. -/
inductive PMode where
  | value
  | items (acc : List Json)
  | members (acc : List (List Char × Json))

/-- Recursive-descent JSON parser, fuelled to stay structurally recursive. -/
def parseJ : Nat → PMode → List Char → Option (Json × List Char)
  | 0, _, _ => none
  | fuel + 1, .value, s =>
    match skipWs s with
    | [] => none
    | c :: cs =>
      if c = quoteChar then
        (parseStrBody (cs.length + 1) cs).map fun r => (.str r.1, r.2)
      else if c = lbraceChar then
        match skipWs cs with
        | c2 :: cs2 =>
          if c2 = rbraceChar then some (.obj [], cs2)
          else parseJ fuel (.members []) cs
        | [] => none
      else if c = '[' then
        match skipWs cs with
        | c2 :: cs2 =>
          if c2 = ']' then some (.arr [], cs2)
          else parseJ fuel (.items []) cs
        | [] => none
      else if c = 'n' then
        (dropLit "ull".data cs).map fun r => (.null, r)
      else if c = 't' then
        (dropLit "rue".data cs).map fun r => (.bool true, r)
      else if c = 'f' then
        (dropLit "alse".data cs).map fun r => (.bool false, r)
      else if c = 'N' then
        (dropLit "aN".data cs).map fun r => (.nan, r)
      else if c = 'I' then
        (dropLit "nfinity".data cs).map fun r => (.infinity false, r)
      else if c = '-' then
        match dropLit "Infinity".data cs with
        | some r => some (.infinity true, r)
        | none => parseNumber (c :: cs)
      else parseNumber (c :: cs)
  | fuel + 1, .items acc, s =>
    match parseJ fuel .value s with
    | none => none
    | some (j, rest) =>
      match skipWs rest with
      | ',' :: r2 => parseJ fuel (.items (acc ++ [j])) r2
      | ']' :: r2 => some (.arr (acc ++ [j]), r2)
      | _ => none
  | fuel + 1, .members acc, s =>
    match skipWs s with
    | [] => none
    | c :: cs =>
      if c = quoteChar then
        match parseStrBody (cs.length + 1) cs with
        | none => none
        | some (key, r1) =>
          match skipWs r1 with
          | ':' :: r2 =>
            match parseJ fuel .value r2 with
            | none => none
            | some (v, r3) =>
              match skipWs r3 with
              | ',' :: r4 => parseJ fuel (.members (objUpsert acc key v)) r4
              | c5 :: r5 =>
                if c5 = rbraceChar then some (.obj (objUpsert acc key v), r5)
                else none
              | [] => none
          | _ => none
      else none

/-- Model of `json.loads` on a string: a single JSON value with only
whitespace around it, `none` for Python's `JSONDecodeError`. -/
def json_loads (s : List Char) : Option Json :=
  match parseJ (2 * s.length + 8) .value s with
  | some (j, rest) => if skipWs rest = [] then some j else none
  | none => none

/-! ## `WebhookSignature` (signature.py) -/

/-- The exceptions `verify` can surface: the SDK's own
`SignatureVerificationError` / `TimestampTooOldError`, plus the plain Python
`ValueError` escaping from `int(timestamp)` and the `json.JSONDecodeError`
escaping from `json.loads`. -/
inductive VerifyError where
  | signatureVerification (msg : List Char)
  | timestampTooOld (msg : List Char)
  | valueError
  | jsonDecodeError

/-- Loop body of `_parse_header`: state is (timestamp so far, signatures so
far); items without `=` and unrecognized keys leave the state unchanged. -/
def parseHeaderStep (acc : Option (List Char) × List (List Char))
    (item0 : List Char) : Option (List Char) × List (List Char) :=
  let item := strip item0
  match splitFirstChar '=' item with
  | none => acc
  | some kv =>
    let k := strip kv.1
    let v := strip kv.2
    if k = ['t'] then (some v, acc.2)
    else if k = ['v', '1'] then (acc.1, acc.2 ++ [v])
    else acc

/-- `WebhookSignature._parse_header`. -/
def parse_header (header : List Char) :
    Except VerifyError (List Char × List (List Char)) :=
  let r := (splitOnChar ',' header).foldl parseHeaderStep (none, [])
  match r.1 with
  | none => .error (.signatureVerification "Missing timestamp in signature header".data)
  | some t =>
    if r.2 = [] then
      .error (.signatureVerification "No v1 signature found in header".data)
    else .ok (t, r.2)

/-- The f-string in the `TimestampTooOldError` raise. -/
def too_old_message (age : Nat) (tolerance : Int) : List Char :=
  "Timestamp is ".data ++ natRepr age ++ "s old, exceeds tolerance of ".data
    ++ intRepr tolerance ++ "s".data

/-- Tail of `verify` after the tolerance check: compare the expected signature
against every candidate (`hmac.compare_digest` modelled as equality), then
parse the payload. -/
def checkSignature (payload timestamp : List Char)
    (signatures : List (List Char)) (secret : List Char) :
    Except VerifyError Json :=
  let expected := compute_signature secret timestamp payload
  if signatures.any fun sig => expected = sig then
    match json_loads payload with
    | some j => .ok j
    | none => .error .jsonDecodeError
  else .error (.signatureVerification "No matching signature found".data)

/-- `WebhookSignature.verify`, with `time.time()` passed in as `now`.
The payload is taken already UTF-8-decoded to a string (the bytes branch of
the source only performs that decoding). -/
def verify (now : Int) (payload signature_header secret : List Char)
    (tolerance : Int) : Except VerifyError Json :=
  match parse_header signature_header with
  | .error e => .error e
  | .ok ts =>
    if 0 < tolerance then
      match pyIntOfString ts.1 with
      | none => .error .valueError
      | some t =>
        let age := (now - t).natAbs
        if tolerance < (age : Int) then
          .error (.timestampTooOld (too_old_message age tolerance))
        else checkSignature payload ts.1 ts.2 secret
    else checkSignature payload ts.1 ts.2 secret

/-! ## Python values (event.py works on untyped parsed dicts) -/

inductive PyVal where
  | pnone
  | pbool (b : Bool)
  | pint (n : Int)
  | pstr (s : List Char)
  | plist (xs : List PyVal)
  | pdict (entries : List (List Char × PyVal))

/-- `d.get(k)` on a Python dict (string keys). -/
def dictGet (d : List (List Char × PyVal)) (k : List Char) : Option PyVal :=
  (d.find? fun e => e.1 = k).map fun e => e.2

/-- `d.get(k, default)`. -/
def dictGetD (d : List (List Char × PyVal)) (k : List Char) (v : PyVal) : PyVal :=
  (dictGet d k).getD v

/-- Python truthiness of the modelled values. -/
def pyTruthy : PyVal → Bool
  | .pnone => false
  | .pbool b => b
  | .pint n => n != 0
  | .pstr s => !s.isEmpty
  | .plist xs => !xs.isEmpty
  | .pdict es => !es.isEmpty

/-- Escape a string for Python `repr` with quote character `q` (backslash,
the quote, and the common control characters; `\xNN` hexification of other
non-printables is not modelled). -/
def pyReprEscape (q : Char) (s : List Char) : List Char :=
  (s.map fun c =>
    if c = backslashChar then [backslashChar, backslashChar]
    else if c = q then [backslashChar, q]
    else if c = '\n' then [backslashChar, 'n']
    else if c = '\r' then [backslashChar, 'r']
    else if c = '\t' then [backslashChar, 't']
    else [c]).flatten

/-- Python `repr` of a string: single quotes, switching to double quotes when
the string contains a single quote but no double quote. -/
def strReprPy (s : List Char) : List Char :=
  let q := if s.contains (Char.ofNat 39) && !s.contains quoteChar then quoteChar
           else Char.ofNat 39
  q :: pyReprEscape q s ++ [q]

def commaJoin : List (List Char) → List Char
  | [] => []
  | [x] => x
  | x :: rest => x ++ ", ".data ++ commaJoin rest

mutual

/-- Python `repr` of a value. -/
def pyRepr : PyVal → List Char
  | .pnone => "None".data
  | .pbool true => "True".data
  | .pbool false => "False".data
  | .pint n => intRepr n
  | .pstr s => strReprPy s
  | .plist xs => '[' :: commaJoin (pyReprList xs) ++ "]".data
  | .pdict es => lbraceChar :: commaJoin (pyReprEntries es) ++ [rbraceChar]

def pyReprList : List PyVal → List (List Char)
  | [] => []
  | v :: vs => pyRepr v :: pyReprList vs

def pyReprEntries : List (List Char × PyVal) → List (List Char)
  | [] => []
  | (k, v) :: es => (strReprPy k ++ ": ".data ++ pyRepr v) :: pyReprEntries es

end

/-- Python `str(v)`: identity on strings, `repr` on containers. -/
def pyStr : PyVal → List Char
  | .pstr s => s
  | v => pyRepr v

/-! ## `EventData` / `Event` (event.py) -/

structure EventData where
  object : PyVal
  previous_attributes : PyVal

/-- `EventData.from_dict`: `object` defaults to `{}`, `previous_attributes`
to `None`. -/
def EventData.from_dict (d : List (List Char × PyVal)) : EventData :=
  ⟨dictGetD d "object".data (.pdict []), dictGetD d "previous_attributes".data .pnone⟩

structure Event where
  id : List Char
  type : PyVal
  created_at : PyVal
  api_version : PyVal
  data : EventData

/-- `Event.from_dict`: unauthenticated construction from a parsed dict, with
the back-compat shape rule for `data`. -/
def Event.from_dict (d : List (List Char × PyVal)) : Event :=
  let data_raw := dictGetD d "data".data (.pdict [])
  let event_data : EventData :=
    match data_raw with
    | .pdict dd =>
      if (dictGet dd "object".data).isSome then EventData.from_dict dd
      else ⟨.pdict dd, .pnone⟩
    | other => ⟨other, .pnone⟩
  ⟨pyStr (dictGetD d "id".data (.pstr [])),
   dictGetD d "type".data (.pstr []),
   dictGetD d "created_at".data .pnone,
   dictGetD d "api_version".data .pnone,
   event_data⟩

/-- `Event.to_dict`: the `result` dict in insertion order. `api_version` is
appended when truthy; `previous_attributes` is appended inside the nested
`data` dict when truthy; `created_at` is placed unconditionally. -/
def Event.to_dict (e : Event) : List (List Char × PyVal) :=
  let dataEntries : List (List Char × PyVal) :=
    ("object".data, e.data.object) ::
      (if pyTruthy e.data.previous_attributes then
        [("previous_attributes".data, e.data.previous_attributes)]
      else [])
  [("id".data, .pstr e.id),
   ("object".data, .pstr "event".data),
   ("type".data, e.type),
   ("created_at".data, e.created_at),
   ("data".data, .pdict dataEntries)]
    ++ (if pyTruthy e.api_version then [("api_version".data, e.api_version)] else [])

/-! ## `WebhookClient` (client.py) -/

inductive ClientError where
  | webhookClientError (msg : List Char)

structure WebhookClient where
  mode : List Char
  base_url : Option (List Char)
  timeout : ℚ
  max_retries : Nat
  retry_delay : ℚ
  queue_url : Option (List Char)
  region_name : List Char

/-- Python `not s` on an optional string: `None` and `""` are falsy. -/
def optStrFalsy : Option (List Char) → Bool
  | none => true
  | some s => s.isEmpty

/-- `WebhookClient.__init__` (defaults in the source: `timeout=5.0`,
`max_retries=3`, `retry_delay=1.0`, `mode="http"`, `region_name="eu-west-1"`):
stores the configuration, then validates the mode-specific required field. -/
def WebhookClient.init (base_url : Option (List Char)) (timeout : ℚ)
    (max_retries : Nat) (retry_delay : ℚ) (mode : List Char)
    (queue_url : Option (List Char)) (region_name : List Char) :
    Except ClientError WebhookClient :=
  if mode = "http".data ∧ optStrFalsy base_url = true then
    .error (.webhookClientError "base_url is required for HTTP mode".data)
  else if mode = "sqs".data ∧ optStrFalsy queue_url = true then
    .error (.webhookClientError "queue_url is required for SQS mode".data)
  else .ok ⟨mode, base_url, timeout, max_retries, retry_delay, queue_url, region_name⟩

inductive Route where
  | http
  | sqs

/-- The dispatch at the end of `trigger`: `"sqs"` goes to `_send_sqs`, every
other mode string falls through to `_send_http`. -/
def WebhookClient.route (c : WebhookClient) : Route :=
  if c.mode = "sqs".data then .sqs else .http

/-- The payload dict built by `trigger` (`name` defaults to `event_type`). -/
def trigger_payload (event_type : List Char) (dataV : PyVal)
    (name : Option (List Char)) : List (List Char × PyVal) :=
  [("event_type".data, .pstr event_type),
   ("name".data, .pstr (name.getD event_type)),
   ("data".data, dataV)]

/-- The f-string URL of `_send_http` (`str(None)` when `base_url` is unset). -/
def trigger_url (c : WebhookClient) : List Char :=
  (match c.base_url with
   | none => "None".data
   | some s => s) ++ "/internal/webhooks/trigger".data

/-- Observable outcome of one POST attempt, supplied per attempt index: a
response with a status code and body text, an `httpx.TimeoutException`, an
`httpx.ConnectError`, or any other exception. -/
inductive AttemptOutcome where
  | response (status : Nat) (body : List Char)
  | timeoutExc (msg : List Char)
  | connectExc (msg : List Char)
  | otherExc (msg : List Char)

/-- What `last_error` holds after a retryable failure. -/
inductive LastError where
  | serverError (status : Nat) (body : List Char)
  | timeout (msg : List Char)
  | connect (msg : List Char)

/-- Why the immediate (non-retried) `WebhookClientError` wrapping happened:
`response.json()` raising inside the `try`, or any other exception. -/
inductive UnexpectedReason where
  | jsonDecode (body : List Char)
  | raised (msg : List Char)

inductive SendResult where
  | ok (j : Json)
  | unexpected (r : UnexpectedReason)
  | exhausted (last : Option LastError)

/-- Trace of one `_send_http` call: its result, the backoff sleeps performed
(in order), and how many POST attempts were made. -/
structure SendTrace where
  result : SendResult
  delays : List ℚ
  attempts : Nat

inductive StepResult where
  | finalOk (j : Json)
  | finalErr (r : UnexpectedReason)
  | retry (le : LastError)

/-- Classification of one attempt, mirroring the body of the `for` loop:
status < 500 is final (body parsed, a parse failure hits the generic
`except Exception` and is wrapped immediately), status ≥ 500 and the two
transport exceptions set `last_error`, anything else is wrapped immediately. -/
def classify (o : AttemptOutcome) : StepResult :=
  match o with
  | .response status body =>
    if status < 500 then
      match json_loads body with
      | some j => .finalOk j
      | none => .finalErr (.jsonDecode body)
    else .retry (.serverError status body)
  | .timeoutExc m => .retry (.timeout m)
  | .connectExc m => .retry (.connect m)
  | .otherExc m => .finalErr (.raised m)

def StepResult.isRetry : StepResult → Bool
  | .retry _ => true
  | _ => false

/-- The `for attempt in range(max_retries + 1)` loop of `_send_http`:
`attempt` is the 0-based index, `rem` the number of loop iterations left.
A retryable failure sleeps `retry_delay * 2 ^ attempt` unless it was the
last iteration, in which case the loop falls through to the final raise
embedding `last_error`. -/
def send_http_aux (rd : ℚ) (outs : Nat → AttemptOutcome) : Nat → Nat → SendTrace
  | _, 0 => ⟨.exhausted none, [], 0⟩
  | attempt, rem + 1 =>
    match classify (outs attempt) with
    | .finalOk j => ⟨.ok j, [], 1⟩
    | .finalErr r => ⟨.unexpected r, [], 1⟩
    | .retry le =>
      match rem with
      | 0 => ⟨.exhausted (some le), [], 1⟩
      | rem' + 1 =>
        let t := send_http_aux rd outs (attempt + 1) (rem' + 1)
        ⟨t.result, rd * 2 ^ attempt :: t.delays, t.attempts + 1⟩

/-- `WebhookClient._send_http` as a function of the per-attempt outcomes. -/
def send_http (max_retries : Nat) (retry_delay : ℚ)
    (outs : Nat → AttemptOutcome) : SendTrace :=
  send_http_aux retry_delay outs 0 (max_retries + 1)

/-! ## Header parsing restated as the spec describes it

The spec sentence reads: split on `,`, trim, split each item on the first
`=`; the last `t` wins, every `v1` value is collected in order, malformed and
unrecognized items are skipped. These definitions restate that rule
declaratively so the loop of `_parse_header` can be proved against it. -/

/-- Key and value of one comma-separated item, `none` when the item has no
`=` (after trimming the item and both sides of the first `=`). -/
def kvOfItem (it : List Char) : Option (List Char × List Char) :=
  (splitFirstChar '=' (strip it)).map fun p => (strip p.1, strip p.2)

/-- The timestamp contributed by one item (key `t`). -/
def tOfItem (it : List Char) : Option (List Char) :=
  (kvOfItem it).bind fun p => if p.1 = ['t'] then some p.2 else none

/-- The signature candidate contributed by one item (key `v1`). -/
def v1OfItem (it : List Char) : Option (List Char) :=
  (kvOfItem it).bind fun p => if p.1 = ['v', '1'] then some p.2 else none

/-- All `t` values of a header, in order. -/
def headerTs (header : List Char) : List (List Char) :=
  (splitOnChar ',' header).filterMap tOfItem

/-- All `v1` values of a header, in order. -/
def headerV1s (header : List Char) : List (List Char) :=
  (splitOnChar ',' header).filterMap v1OfItem

/-! # Theorems -/

/-! ## Retry-loop lemmas -/

lemma send_http_aux_attempts_le (rd : ℚ) (outs : Nat → AttemptOutcome) :
    ∀ rem attempt, (send_http_aux rd outs attempt rem).attempts ≤ rem := by
  intro rem
  induction rem with
  | zero => intro attempt; simp [send_http_aux]
  | succ rem ih =>
    intro attempt
    rw [send_http_aux]
    cases classify (outs attempt) with
    | finalOk j => simp
    | finalErr r => simp
    | retry le =>
      cases rem with
      | zero => simp
      | succ rem' =>
        simp only
        have := ih (attempt + 1)
        omega

lemma range_pow_shift (rd : ℚ) :
    ∀ (k a : Nat),
      (List.range (k + 1)).map (fun i => rd * 2 ^ (a + i)) =
        rd * 2 ^ a :: (List.range k).map (fun i => rd * 2 ^ (a + 1 + i)) := by
  intro k
  induction k with
  | zero => intro a; simp [List.range_succ]
  | succ k ih =>
    intro a
    rw [List.range_succ, List.map_append, ih a, List.range_succ, List.map_append]
    have h : a + (k + 1) = a + 1 + k := by omega
    simp [h]

/-- After `k` retryable attempts the loop behaves like a fresh loop shifted by
`k`, accumulating the `k` backoff sleeps and attempts. -/
lemma send_http_aux_shift (rd : ℚ) (outs : Nat → AttemptOutcome) :
    ∀ (k attempt r : Nat),
      (∀ i, i < k → (classify (outs (attempt + i))).isRetry = true) →
      send_http_aux rd outs attempt (k + (r + 1)) =
        ⟨(send_http_aux rd outs (attempt + k) (r + 1)).result,
         ((List.range k).map fun i => rd * 2 ^ (attempt + i))
           ++ (send_http_aux rd outs (attempt + k) (r + 1)).delays,
         k + (send_http_aux rd outs (attempt + k) (r + 1)).attempts⟩ := by
  intro k
  induction k with
  | zero =>
    intro attempt r _
    simp
  | succ k ih =>
    intro attempt r hretry
    have h0 : (classify (outs attempt)).isRetry = true := by
      have := hretry 0 (by omega)
      simpa using this
    have hstep : k + 1 + (r + 1) = (k + (r + 1)) + 1 := by omega
    rw [hstep, send_http_aux]
    cases hc : classify (outs attempt) with
    | finalOk j => rw [hc] at h0; simp [StepResult.isRetry] at h0
    | finalErr r2 => rw [hc] at h0; simp [StepResult.isRetry] at h0
    | retry le =>
      have ih' := ih (attempt + 1) r (by
        intro i hi
        have := hretry (i + 1) (by omega)
        have harg : attempt + (i + 1) = attempt + 1 + i := by omega
        rw [harg] at this
        exact this)
      simp only [Nat.add_eq]
      have hback : k + r + 1 = k + (r + 1) := by omega
      rw [hback, ih']
      have harg2 : attempt + (k + 1) = attempt + 1 + k := by omega
      rw [harg2, range_pow_shift rd k attempt]
      simp [List.cons_append]
      omega

/-! ## C4 -/

/-- C4: `_send_http` makes at most `max_retries + 1` attempts; the first
attempt whose response has status < 500 (after only retryable failures) is
final, returning the parsed JSON body after the accumulated backoff delays
`retry_delay * 2 ^ i`; a non-retryable exception (including a body that fails
to parse) is wrapped and raised immediately at that attempt; and when every
attempt fails retryably the loop exhausts all `max_retries + 1` attempts,
sleeping `retry_delay * 2 ^ i` after each failure except the last, and raises
a delivery error embedding the last observed failure. -/
theorem c4_send_http_retry_contract (mr : Nat) (rd : ℚ)
    (outs : Nat → AttemptOutcome) :
    ((send_http mr rd outs).attempts ≤ mr + 1)
    ∧ (∀ k j, k ≤ mr →
        (∀ i, i < k → (classify (outs i)).isRetry = true) →
        classify (outs k) = .finalOk j →
        send_http mr rd outs =
          ⟨.ok j, (List.range k).map fun i => rd * 2 ^ i, k + 1⟩)
    ∧ (∀ k r, k ≤ mr →
        (∀ i, i < k → (classify (outs i)).isRetry = true) →
        classify (outs k) = .finalErr r →
        send_http mr rd outs =
          ⟨.unexpected r, (List.range k).map fun i => rd * 2 ^ i, k + 1⟩)
    ∧ (∀ le, (∀ i, i < mr → (classify (outs i)).isRetry = true) →
        classify (outs mr) = .retry le →
        send_http mr rd outs =
          ⟨.exhausted (some le), (List.range mr).map fun i => rd * 2 ^ i,
           mr + 1⟩) := by
  refine ⟨send_http_aux_attempts_le rd outs (mr + 1) 0, ?_, ?_, ?_⟩
  · intro k j hk hretry hfin
    have hsplit : mr + 1 = k + ((mr - k) + 1) := by omega
    rw [send_http, hsplit,
      send_http_aux_shift rd outs k 0 (mr - k) (by simpa using hretry)]
    rw [send_http_aux]
    simp only [Nat.zero_add, hfin]
    simp
  · intro k r hk hretry hfin
    have hsplit : mr + 1 = k + ((mr - k) + 1) := by omega
    rw [send_http, hsplit,
      send_http_aux_shift rd outs k 0 (mr - k) (by simpa using hretry)]
    rw [send_http_aux]
    simp only [Nat.zero_add, hfin]
    simp
  · intro le hretry hfin
    have hsplit : mr + 1 = mr + (0 + 1) := by omega
    rw [send_http, hsplit,
      send_http_aux_shift rd outs mr 0 0 (by simpa using hretry)]
    rw [send_http_aux]
    simp only [Nat.zero_add, hfin]
    simp

/-- C4 witness: `max_retries = 2` against an endpoint that always returns
HTTP 500 gives exactly 3 attempts, delays `1 = retry_delay` and
`2 = retry_delay * 2`, and a delivery error embedding the last failure. -/
theorem c4_send_http_retry_contract_witness :
    send_http 2 1 (fun _ => .response 500 "boom".data) =
      ⟨.exhausted (some (.serverError 500 "boom".data)),
       (List.range 2).map fun i => (1 : ℚ) * 2 ^ i, 3⟩
    ∧ ((List.range 2).map fun i => (1 : ℚ) * 2 ^ i) = [1, 2] := by
  constructor
  · exact (c4_send_http_retry_contract 2 1 (fun _ => .response 500 "boom".data)).2.2.2
      (.serverError 500 "boom".data) (fun i _ => rfl) rfl
  · norm_num [List.range_succ]

/-! ## C5 -/

/-- C5: constructing a client in HTTP mode with a missing or empty `base_url`,
or in SQS mode with a missing or empty `queue_url`, fails with
`WebhookClientError` at construction time; construction with the
mode-specific required field non-empty succeeds. -/
theorem c5_init_validation (base_url queue_url : Option (List Char))
    (timeout : ℚ) (mr : Nat) (rd : ℚ) (region : List Char) :
    (optStrFalsy base_url = true →
      WebhookClient.init base_url timeout mr rd "http".data queue_url region =
        .error (.webhookClientError "base_url is required for HTTP mode".data))
    ∧ (optStrFalsy queue_url = true →
      WebhookClient.init base_url timeout mr rd "sqs".data queue_url region =
        .error (.webhookClientError "queue_url is required for SQS mode".data))
    ∧ (optStrFalsy base_url = false →
      WebhookClient.init base_url timeout mr rd "http".data queue_url region =
        .ok ⟨"http".data, base_url, timeout, mr, rd, queue_url, region⟩)
    ∧ (optStrFalsy queue_url = false →
      WebhookClient.init base_url timeout mr rd "sqs".data queue_url region =
        .ok ⟨"sqs".data, base_url, timeout, mr, rd, queue_url, region⟩) := by
  refine ⟨?_, ?_, ?_, ?_⟩ <;> intro h <;> simp [WebhookClient.init, h]

/-- C5 witness: missing `base_url` in HTTP mode and missing `queue_url` in
SQS mode fail at construction; supplying them succeeds. -/
theorem c5_init_validation_witness :
    (WebhookClient.init none 5 3 1 "http".data none "eu-west-1".data =
      .error (.webhookClientError "base_url is required for HTTP mode".data))
    ∧ (WebhookClient.init none 5 3 1 "sqs".data none "eu-west-1".data =
      .error (.webhookClientError "queue_url is required for SQS mode".data))
    ∧ (WebhookClient.init (some "http://h".data) 5 3 1 "http".data none
        "eu-west-1".data =
      .ok ⟨"http".data, some "http://h".data, 5, 3, 1, none, "eu-west-1".data⟩)
    ∧ (WebhookClient.init none 5 3 1 "sqs".data (some "q".data)
        "eu-west-1".data =
      .ok ⟨"sqs".data, none, 5, 3, 1, some "q".data, "eu-west-1".data⟩) :=
  ⟨(c5_init_validation none none 5 3 1 "eu-west-1".data).1 rfl,
   (c5_init_validation none none 5 3 1 "eu-west-1".data).2.1 rfl,
   (c5_init_validation (some "http://h".data) none 5 3 1 "eu-west-1".data).2.2.1 rfl,
   (c5_init_validation none (some "q".data) 5 3 1 "eu-west-1".data).2.2.2 rfl⟩

/-! ## C10 -/

/-- C10: for any mode string other than `"http"` and `"sqs"`, construction
performs no required-field validation and succeeds with both URLs absent, and
`trigger` routes such a client through the HTTP send path. -/
theorem c10_unknown_mode_unvalidated (mode : List Char) (timeout : ℚ)
    (mr : Nat) (rd : ℚ) (region : List Char)
    (h1 : mode ≠ "http".data) (h2 : mode ≠ "sqs".data) :
    WebhookClient.init none timeout mr rd mode none region =
      .ok ⟨mode, none, timeout, mr, rd, none, region⟩
    ∧ WebhookClient.route ⟨mode, none, timeout, mr, rd, none, region⟩ =
      .http := by
  constructor
  · simp [WebhookClient.init, h1, h2]
  · simp [WebhookClient.route, h2]

/-- C10 witness: mode `"queue"` (as the spec calls the non-HTTP mode) builds
with no URLs and routes to HTTP. -/
theorem c10_unknown_mode_unvalidated_witness :
    WebhookClient.init none 5 3 1 "queue".data none "eu-west-1".data =
      .ok ⟨"queue".data, none, 5, 3, 1, none, "eu-west-1".data⟩
    ∧ WebhookClient.route ⟨"queue".data, none, 5, 3, 1, none, "eu-west-1".data⟩ =
      .http :=
  c10_unknown_mode_unvalidated "queue".data 5 3 1 "eu-west-1".data
    (by decide) (by decide)

/-! ## Signature-verification lemmas -/

lemma verify_eq_checkSignature (now tol : Int)
    (payload header secret ts : List Char) (sigs : List (List Char)) (t : Int)
    (hparse : parse_header header = .ok (ts, sigs))
    (hts : pyIntOfString ts = some t)
    (htol : 0 < tol)
    (hage : ((now - t).natAbs : Int) ≤ tol) :
    verify now payload header secret tol = checkSignature payload ts sigs secret := by
  unfold verify
  rw [hparse]
  simp only [htol, if_true, hts]
  rw [if_neg (not_lt.mpr hage)]

lemma verify_zero_tolerance (now : Int)
    (payload header secret ts : List Char) (sigs : List (List Char))
    (hparse : parse_header header = .ok (ts, sigs)) :
    verify now payload header secret 0 = checkSignature payload ts sigs secret := by
  unfold verify
  rw [hparse]
  simp

lemma checkSignature_of_mem (payload ts secret : List Char)
    (sigs : List (List Char)) (j : Json)
    (hjson : json_loads payload = some j)
    (hmem : compute_signature secret ts payload ∈ sigs) :
    checkSignature payload ts sigs secret = .ok j := by
  unfold checkSignature
  have hany : (sigs.any fun sig => compute_signature secret ts payload = sig) = true := by
    rw [List.any_eq_true]
    exact ⟨_, hmem, by simp⟩
  rw [if_pos hany, hjson]

lemma checkSignature_of_not_mem (payload ts secret : List Char)
    (sigs : List (List Char))
    (hmem : compute_signature secret ts payload ∉ sigs) :
    checkSignature payload ts sigs secret =
      .error (.signatureVerification "No matching signature found".data) := by
  unfold checkSignature
  have hany : (sigs.any fun sig => compute_signature secret ts payload = sig) = false := by
    rw [List.any_eq_false]
    intro x hx
    simp only [decide_eq_true_eq]
    intro he
    exact hmem (he ▸ hx)
  rw [if_neg (by simp [hany])]

/-! ## C1 -/

/-- C1: with tolerance > 0 and the timestamp within tolerance of `now`,
`verify` returns the JSON-parsed payload exactly when some v1 candidate equals
the lowercase-hex HMAC-SHA256 of `timestamp + "." + payload` keyed by the
secret, and raises `SignatureVerificationError` ("No matching signature
found") when no candidate equals it. -/
theorem c1_verify_signature_match (now tol : Int)
    (secret payload header ts : List Char) (sigs : List (List Char))
    (t : Int) (j : Json)
    (hparse : parse_header header = .ok (ts, sigs))
    (hts : pyIntOfString ts = some t)
    (htol : 0 < tol)
    (hage : ((now - t).natAbs : Int) ≤ tol)
    (hjson : json_loads payload = some j) :
    (compute_signature secret ts payload ∈ sigs →
      verify now payload header secret tol = .ok j)
    ∧ (compute_signature secret ts payload ∉ sigs →
      verify now payload header secret tol =
        .error (.signatureVerification "No matching signature found".data)) := by
  rw [verify_eq_checkSignature now tol payload header secret ts sigs t hparse hts htol hage]
  exact ⟨checkSignature_of_mem payload ts secret sigs j hjson,
         checkSignature_of_not_mem payload ts secret sigs⟩

/-- C1 witness: at `now = 1100`, secret `"whsec_test"`, payload `"[]"`,
timestamp `1000`, the header carrying the HMAC computed with the right secret
verifies to the parsed payload, and the header carrying the HMAC computed with
the different secret `"whsec_other"` fails with
"No matching signature found". -/
theorem c1_verify_signature_match_witness :
    (verify 1100 "[]".data
      "t=1000,v1=e565973ceab29bf5e182952c7f7200c986e2c27c85ec7285a197c3713c0045b2".data
      "whsec_test".data 300 = .ok (.arr []))
    ∧ (verify 1100 "[]".data
      "t=1000,v1=cd34419429aa2209fdba3d00107262f738215f7bbd2f371f03b73127b217eef2".data
      "whsec_test".data 300 =
        .error (.signatureVerification "No matching signature found".data)) := by
  constructor
  · exact (c1_verify_signature_match 1100 300 "whsec_test".data "[]".data
      "t=1000,v1=e565973ceab29bf5e182952c7f7200c986e2c27c85ec7285a197c3713c0045b2".data
      "1000".data
      ["e565973ceab29bf5e182952c7f7200c986e2c27c85ec7285a197c3713c0045b2".data]
      1000 (.arr []) rfl rfl (by decide) (by decide) rfl).1
      (List.mem_singleton.mpr rfl)
  · exact (c1_verify_signature_match 1100 300 "whsec_test".data "[]".data
      "t=1000,v1=cd34419429aa2209fdba3d00107262f738215f7bbd2f371f03b73127b217eef2".data
      "1000".data
      ["cd34419429aa2209fdba3d00107262f738215f7bbd2f371f03b73127b217eef2".data]
      1000 (.arr []) rfl rfl (by decide) (by decide) rfl).2
      (by decide)

/-! ## C2 -/

/-- C2: for a header parsing to timestamp `ts` (with integer value `t`) and a
non-empty signature list, a positive tolerance smaller than
`|now - t|` makes `verify` fail with `TimestampTooOldError` before any
signature comparison (no hypothesis about the candidates is needed), while
tolerance 0 skips the age check entirely and goes straight to the signature
comparison. -/
theorem c2_timestamp_tolerance_window (now : Int)
    (payload header secret ts : List Char) (sigs : List (List Char))
    (t tol : Int)
    (hparse : parse_header header = .ok (ts, sigs))
    (hts : pyIntOfString ts = some t) :
    (0 < tol → tol < ((now - t).natAbs : Int) →
      verify now payload header secret tol =
        .error (.timestampTooOld (too_old_message (now - t).natAbs tol)))
    ∧ verify now payload header secret 0 =
        checkSignature payload ts sigs secret := by
  constructor
  · intro htol hage
    unfold verify
    rw [hparse]
    simp only [htol, if_true, hts]
    rw [if_pos hage]
  · exact verify_zero_tolerance now payload header secret ts sigs hparse

/-- C2 witness: a header correctly signed at timestamp 100 and checked at
`now = 100000` fails with `TimestampTooOldError` under tolerance 300 even
though its signature matches, and with tolerance 0 the same call goes straight
to the signature comparison. -/
theorem c2_timestamp_tolerance_window_witness :
    (verify 100000 "[]".data
      "t=100,v1=06a26129f585c6c74461b891874cbd6f8ca3c6c31e3d4b85419677c05cbdee94".data
      "whsec_test".data 300 =
        .error (.timestampTooOld (too_old_message 99900 300)))
    ∧ verify 100000 "[]".data
      "t=100,v1=06a26129f585c6c74461b891874cbd6f8ca3c6c31e3d4b85419677c05cbdee94".data
      "whsec_test".data 0 =
        checkSignature "[]".data "100".data
          ["06a26129f585c6c74461b891874cbd6f8ca3c6c31e3d4b85419677c05cbdee94".data]
          "whsec_test".data := by
  constructor
  · exact (c2_timestamp_tolerance_window 100000 "[]".data
      "t=100,v1=06a26129f585c6c74461b891874cbd6f8ca3c6c31e3d4b85419677c05cbdee94".data
      "whsec_test".data "100".data
      ["06a26129f585c6c74461b891874cbd6f8ca3c6c31e3d4b85419677c05cbdee94".data]
      100 300 rfl rfl).1 (by decide) (by decide)
  · exact (c2_timestamp_tolerance_window 100000 "[]".data
      "t=100,v1=06a26129f585c6c74461b891874cbd6f8ca3c6c31e3d4b85419677c05cbdee94".data
      "whsec_test".data "100".data
      ["06a26129f585c6c74461b891874cbd6f8ca3c6c31e3d4b85419677c05cbdee94".data]
      100 300 rfl rfl).2

/-! ## C9 -/

/-- C9: when the header parses but its `t` value is not an integer string,
`verify` with positive tolerance surfaces the plain `ValueError` from
`int(timestamp)` — not a `SignatureVerificationError` and not a
`TimestampTooOldError` — while tolerance 0 skips the conversion and proceeds
to the signature comparison. -/
theorem c9_nonnumeric_timestamp_value_error (now tol : Int)
    (payload header secret ts : List Char) (sigs : List (List Char))
    (hparse : parse_header header = .ok (ts, sigs))
    (hts : pyIntOfString ts = none) :
    (0 < tol → verify now payload header secret tol = .error .valueError)
    ∧ verify now payload header secret 0 =
        checkSignature payload ts sigs secret := by
  constructor
  · intro htol
    unfold verify
    rw [hparse]
    simp only [htol, if_true, hts]
  · exact verify_zero_tolerance now payload header secret ts sigs hparse

/-- C9 witness: the header `"t=abc, v1=deadbeef"` raises `ValueError` under
tolerance 300 and proceeds to the signature comparison under tolerance 0. -/
theorem c9_nonnumeric_timestamp_value_error_witness :
    (verify 1000 "[]".data "t=abc, v1=deadbeef".data "whsec_test".data 300 =
      .error .valueError)
    ∧ verify 1000 "[]".data "t=abc, v1=deadbeef".data "whsec_test".data 0 =
        checkSignature "[]".data "abc".data ["deadbeef".data]
          "whsec_test".data := by
  constructor
  · exact (c9_nonnumeric_timestamp_value_error 1000 300 "[]".data
      "t=abc, v1=deadbeef".data "whsec_test".data "abc".data
      ["deadbeef".data] rfl rfl).1 (by decide)
  · exact (c9_nonnumeric_timestamp_value_error 1000 300 "[]".data
      "t=abc, v1=deadbeef".data "whsec_test".data "abc".data
      ["deadbeef".data] rfl rfl).2

/-! ## Event lemmas -/

lemma from_dict_id (d : List (List Char × PyVal)) :
    (Event.from_dict d).id = pyStr (dictGetD d "id".data (.pstr [])) := rfl

lemma from_dict_type (d : List (List Char × PyVal)) :
    (Event.from_dict d).type = dictGetD d "type".data (.pstr []) := rfl

lemma from_dict_data_object (d dd : List (List Char × PyVal)) (ov : PyVal)
    (hd : dictGetD d "data".data (.pdict []) = .pdict dd)
    (ho : dictGet dd "object".data = some ov) :
    (Event.from_dict d).data =
      ⟨ov, dictGetD dd "previous_attributes".data .pnone⟩ := by
  unfold Event.from_dict EventData.from_dict
  simp only [hd, ho, Option.isSome_some, if_true]
  simp [dictGetD, ho]

lemma from_dict_data_pdict_no_object (d dd : List (List Char × PyVal))
    (hd : dictGetD d "data".data (.pdict []) = .pdict dd)
    (ho : dictGet dd "object".data = none) :
    (Event.from_dict d).data = ⟨.pdict dd, .pnone⟩ := by
  unfold Event.from_dict
  simp only [hd, ho]
  rfl

lemma from_dict_data_nondict (d : List (List Char × PyVal)) (v : PyVal)
    (hd : dictGetD d "data".data (.pdict []) = v)
    (hv : ∀ es, v ≠ .pdict es) :
    (Event.from_dict d).data = ⟨v, .pnone⟩ := by
  unfold Event.from_dict
  simp only [hd]

lemma to_dict_lookup_id (e : Event) :
    dictGet (Event.to_dict e) "id".data = some (.pstr e.id) := by
  unfold Event.to_dict
  cases h1 : pyTruthy e.data.previous_attributes <;>
    cases h2 : pyTruthy e.api_version <;> rfl

lemma to_dict_lookup_object (e : Event) :
    dictGet (Event.to_dict e) "object".data = some (.pstr "event".data) := by
  unfold Event.to_dict
  cases h1 : pyTruthy e.data.previous_attributes <;>
    cases h2 : pyTruthy e.api_version <;> rfl

lemma to_dict_lookup_type (e : Event) :
    dictGet (Event.to_dict e) "type".data = some e.type := by
  unfold Event.to_dict
  cases h1 : pyTruthy e.data.previous_attributes <;>
    cases h2 : pyTruthy e.api_version <;> rfl

lemma to_dict_lookup_created_at (e : Event) :
    dictGet (Event.to_dict e) "created_at".data = some e.created_at := by
  unfold Event.to_dict
  cases h1 : pyTruthy e.data.previous_attributes <;>
    cases h2 : pyTruthy e.api_version <;> rfl

lemma to_dict_lookup_data (e : Event) :
    dictGet (Event.to_dict e) "data".data =
      some (.pdict (("object".data, e.data.object) ::
        (if pyTruthy e.data.previous_attributes then
          [("previous_attributes".data, e.data.previous_attributes)]
        else []))) := by
  unfold Event.to_dict
  cases h1 : pyTruthy e.data.previous_attributes <;>
    cases h2 : pyTruthy e.api_version <;> rfl

lemma to_dict_lookup_api_version (e : Event) :
    dictGet (Event.to_dict e) "api_version".data =
      (if pyTruthy e.api_version then some e.api_version else none) := by
  unfold Event.to_dict
  cases h1 : pyTruthy e.data.previous_attributes <;>
    cases h2 : pyTruthy e.api_version <;> rfl

lemma to_dict_keys (e : Event) :
    (Event.to_dict e).map Prod.fst =
      ["id".data, "object".data, "type".data, "created_at".data, "data".data]
        ++ (if pyTruthy e.api_version then ["api_version".data] else []) := by
  unfold Event.to_dict
  cases h1 : pyTruthy e.data.previous_attributes <;>
    cases h2 : pyTruthy e.api_version <;> rfl

/-! ## C6 -/

/-- C6: `Event.from_dict` stringifies `id` (default `""`), defaults `type` to
`""`, and builds `data` so that a dict-valued `data` entry with an `object`
key contributes that `object` and its optional `previous_attributes` (null
when absent), a dict-valued `data` entry without an `object` key becomes the
`object` itself, and any non-dict `data` value becomes the `object` with null
`previous_attributes` — so `data` is always a populated `EventData`. -/
theorem c6_from_dict_shape (d : List (List Char × PyVal)) :
    ((Event.from_dict d).id = pyStr (dictGetD d "id".data (.pstr [])))
    ∧ ((Event.from_dict d).type = dictGetD d "type".data (.pstr []))
    ∧ (∀ dd ov, dictGetD d "data".data (.pdict []) = .pdict dd →
        dictGet dd "object".data = some ov →
        (Event.from_dict d).data =
          ⟨ov, dictGetD dd "previous_attributes".data .pnone⟩)
    ∧ (∀ dd, dictGetD d "data".data (.pdict []) = .pdict dd →
        dictGet dd "object".data = none →
        (Event.from_dict d).data = ⟨.pdict dd, .pnone⟩)
    ∧ (∀ v, dictGetD d "data".data (.pdict []) = v → (∀ es, v ≠ .pdict es) →
        (Event.from_dict d).data = ⟨v, .pnone⟩) :=
  ⟨from_dict_id d, from_dict_type d,
   fun dd ov hd ho => from_dict_data_object d dd ov hd ho,
   fun dd hd ho => from_dict_data_pdict_no_object d dd hd ho,
   fun v hd hv => from_dict_data_nondict d v hd hv⟩

/-- C6 witness: a payload with an integer `id`, a `data.object` and a
`previous_attributes`, and a second payload whose `data` has no `object` key,
instantiate the shape rules. -/
theorem c6_from_dict_shape_witness :
    ((Event.from_dict [("id".data, .pint 7),
        ("data".data, .pdict [("object".data, .pdict [("k".data, .pint 1)]),
          ("previous_attributes".data, .pdict [("k".data, .pint 0)])])]).id
      = "7".data)
    ∧ ((Event.from_dict [("id".data, .pint 7),
        ("data".data, .pdict [("object".data, .pdict [("k".data, .pint 1)]),
          ("previous_attributes".data, .pdict [("k".data, .pint 0)])])]).data
      = ⟨.pdict [("k".data, .pint 1)], .pdict [("k".data, .pint 0)]⟩)
    ∧ ((Event.from_dict [("data".data, .pdict [("x".data, .pint 2)])]).data
      = ⟨.pdict [("x".data, .pint 2)], .pnone⟩) := by
  refine ⟨?_, ?_, ?_⟩
  · exact (c6_from_dict_shape [("id".data, .pint 7),
      ("data".data, .pdict [("object".data, .pdict [("k".data, .pint 1)]),
        ("previous_attributes".data, .pdict [("k".data, .pint 0)])])]).1
  · exact (c6_from_dict_shape [("id".data, .pint 7),
      ("data".data, .pdict [("object".data, .pdict [("k".data, .pint 1)]),
        ("previous_attributes".data, .pdict [("k".data, .pint 0)])])]).2.2.1
      [("object".data, .pdict [("k".data, .pint 1)]),
       ("previous_attributes".data, .pdict [("k".data, .pint 0)])]
      (.pdict [("k".data, .pint 1)]) rfl rfl
  · exact (c6_from_dict_shape [("data".data, .pdict [("x".data, .pint 2)])]).2.2.2.1
      [("x".data, .pint 2)] rfl rfl

/-! ## C7 -/

/-- C7: for any well-formed payload dict (string `type`, dict `data` with an
`object` key), `from_dict ∘ to_dict ∘ from_dict` preserves `type` and
`data.object`. -/
theorem c7_roundtrip (d : List (List Char × PyVal)) (tvs : List Char)
    (dd : List (List Char × PyVal)) (ov : PyVal)
    (htype : dictGet d "type".data = some (.pstr tvs))
    (hdata : dictGet d "data".data = some (.pdict dd))
    (hobj : dictGet dd "object".data = some ov) :
    (Event.from_dict (Event.to_dict (Event.from_dict d))).type = .pstr tvs
    ∧ (Event.from_dict (Event.to_dict (Event.from_dict d))).data.object
      = ov := by
  have he1type : (Event.from_dict d).type = .pstr tvs := by
    rw [from_dict_type d]
    simp [dictGetD, htype]
  have he1data : (Event.from_dict d).data =
      ⟨ov, dictGetD dd "previous_attributes".data .pnone⟩ :=
    from_dict_data_object d dd ov (by simp [dictGetD, hdata]) hobj
  constructor
  · rw [from_dict_type (Event.to_dict (Event.from_dict d))]
    unfold dictGetD
    rw [to_dict_lookup_type, he1type]
    rfl
  · have h2 : dictGetD (Event.to_dict (Event.from_dict d)) "data".data
        (.pdict []) =
        .pdict (("object".data, (Event.from_dict d).data.object) ::
          (if pyTruthy (Event.from_dict d).data.previous_attributes then
            [("previous_attributes".data,
              (Event.from_dict d).data.previous_attributes)]
          else [])) := by
      unfold dictGetD
      rw [to_dict_lookup_data]
      rfl
    have h3 : dictGet (("object".data, (Event.from_dict d).data.object) ::
        (if pyTruthy (Event.from_dict d).data.previous_attributes then
          [("previous_attributes".data,
            (Event.from_dict d).data.previous_attributes)]
        else [])) "object".data = some (Event.from_dict d).data.object := rfl
    rw [from_dict_data_object (Event.to_dict (Event.from_dict d)) _
      (Event.from_dict d).data.object h2 h3]
    rw [he1data]

/-- C7 witness: a concrete well-formed payload round-trips its `type` and
`data.object`. -/
theorem c7_roundtrip_witness :
    (Event.from_dict (Event.to_dict (Event.from_dict
      [("type".data, .pstr "a.b".data),
       ("data".data, .pdict [("object".data, .pdict [("k".data, .pint 1)])])]))).type
      = .pstr "a.b".data
    ∧ (Event.from_dict (Event.to_dict (Event.from_dict
      [("type".data, .pstr "a.b".data),
       ("data".data, .pdict [("object".data, .pdict [("k".data, .pint 1)])])]))).data.object
      = .pdict [("k".data, .pint 1)] :=
  c7_roundtrip [("type".data, .pstr "a.b".data),
    ("data".data, .pdict [("object".data, .pdict [("k".data, .pint 1)])])]
    "a.b".data [("object".data, .pdict [("k".data, .pint 1)])]
    (.pdict [("k".data, .pint 1)]) rfl rfl rfl

/-! ## C8 -/

/-- C8 counterexample: an event built from a payload with no `created_at`
still emits the `created_at` key, with a null value, in `to_dict` — the
field is not omitted. -/
theorem c8_created_at_not_omitted :
    dictGet (Event.to_dict (Event.from_dict
      [("type".data, PyVal.pstr "x".data)])) "created_at".data
      = some PyVal.pnone := rfl

/-- C8 (amended): `to_dict` emits `{id, object: "event", type, created_at,
data: {object, previousAttributes only if truthy}, apiVersion only if
truthy}`; absent `api_version` and `previous_attributes` are omitted entirely
rather than emitted as null, while `created_at` is always emitted, as a null
value when absent. -/
theorem c8_to_dict_shape (e : Event) :
    ((Event.to_dict e).map Prod.fst =
      ["id".data, "object".data, "type".data, "created_at".data, "data".data]
        ++ (if pyTruthy e.api_version then ["api_version".data] else []))
    ∧ dictGet (Event.to_dict e) "id".data = some (.pstr e.id)
    ∧ dictGet (Event.to_dict e) "object".data = some (.pstr "event".data)
    ∧ dictGet (Event.to_dict e) "type".data = some e.type
    ∧ dictGet (Event.to_dict e) "created_at".data = some e.created_at
    ∧ dictGet (Event.to_dict e) "data".data =
        some (.pdict (("object".data, e.data.object) ::
          (if pyTruthy e.data.previous_attributes then
            [("previous_attributes".data, e.data.previous_attributes)]
          else [])))
    ∧ dictGet (Event.to_dict e) "api_version".data =
        (if pyTruthy e.api_version then some e.api_version else none) :=
  ⟨to_dict_keys e, to_dict_lookup_id e, to_dict_lookup_object e,
   to_dict_lookup_type e, to_dict_lookup_created_at e,
   to_dict_lookup_data e, to_dict_lookup_api_version e⟩

/-! ## C3 -/

lemma getLast?_cons_elim {α : Type} :
    ∀ (l : List α) (x : α) (a : Option α),
      ((x :: l).getLast?).elim a some = (l.getLast?).elim (some x) some
  | [], _, _ => rfl
  | y :: t, x, a => by
    rw [List.getLast?_cons_cons]
    exact (getLast?_cons_elim t y a).trans (getLast?_cons_elim t y (some x)).symm

/-- The loop of `_parse_header` computes the last `t` value (falling back to
the accumulator) and appends the `v1` values in order. -/
lemma foldl_parseHeaderStep_eq :
    ∀ (items : List (List Char)) (acc : Option (List Char) × List (List Char)),
      items.foldl parseHeaderStep acc =
        (((items.filterMap tOfItem).getLast?).elim acc.1 some,
         acc.2 ++ items.filterMap v1OfItem) := by
  intro items
  induction items with
  | nil => intro acc; simp
  | cons it rest ih =>
    intro acc
    rw [List.foldl_cons, ih]
    cases hs : splitFirstChar '=' (strip it) with
    | none =>
      have hstep : parseHeaderStep acc it = acc := by
        unfold parseHeaderStep
        simp [hs]
      have ht : tOfItem it = none := by simp [tOfItem, kvOfItem, hs]
      have hv : v1OfItem it = none := by simp [v1OfItem, kvOfItem, hs]
      rw [hstep]
      simp [List.filterMap_cons, ht, hv]
    | some kv =>
      have hkv : kvOfItem it = some (strip kv.1, strip kv.2) := by
        simp [kvOfItem, hs]
      by_cases hk : strip kv.1 = ['t']
      · have hstep : parseHeaderStep acc it = (some (strip kv.2), acc.2) := by
          unfold parseHeaderStep
          simp [hs, hk]
        have ht : tOfItem it = some (strip kv.2) := by
          simp [tOfItem, hkv, hk]
        have hv : v1OfItem it = none := by
          simp [v1OfItem, hkv, hk]
        rw [hstep]
        simp only [List.filterMap_cons, ht, hv]
        rw [getLast?_cons_elim]
      · by_cases hk2 : strip kv.1 = ['v', '1']
        · have hstep : parseHeaderStep acc it = (acc.1, acc.2 ++ [strip kv.2]) := by
            unfold parseHeaderStep
            simp [hs, hk, hk2]
          have ht : tOfItem it = none := by
            simp [tOfItem, hkv, hk]
          have hv : v1OfItem it = some (strip kv.2) := by
            simp [v1OfItem, hkv, hk2]
          rw [hstep]
          simp [List.filterMap_cons, ht, hv]
        · have hstep : parseHeaderStep acc it = acc := by
            unfold parseHeaderStep
            simp [hs, hk, hk2]
          have ht : tOfItem it = none := by
            simp [tOfItem, hkv, hk]
          have hv : v1OfItem it = none := by
            simp [v1OfItem, hkv, hk2]
          rw [hstep]
          simp [List.filterMap_cons, ht, hv]

/-- C3: `_parse_header` splits the header on `,`, trims each item, splits it
on the first `=` and trims key and value; items without `=` and items with
unrecognized keys are skipped; the last `t` value wins; the `v1` values are
collected in order; a header with no `t` fails with "Missing timestamp in
signature header" and a header with `t` but no `v1` fails with "No v1
signature found in header". -/
theorem c3_parse_header_rules (header : List Char) :
    parse_header header =
      match (headerTs header).getLast? with
      | none =>
        .error (.signatureVerification "Missing timestamp in signature header".data)
      | some t =>
        if headerV1s header = [] then
          .error (.signatureVerification "No v1 signature found in header".data)
        else .ok (t, headerV1s header) := by
  unfold parse_header headerTs headerV1s
  rw [foldl_parseHeaderStep_eq]
  cases hl : ((splitOnChar ',' header).filterMap tOfItem).getLast? with
  | none => simp
  | some t => simp

end TS
